import Mathlib

/-!
Verification development for the ServiceTitan ETL pipeline
(`json2bq-job/servicetitan_all_json_to_bigquery.py` and
`json2bq-job/servicetitan_common.py`).

The Python data values, the row transformer, the schema reconciler, the
incremental merge engine and the error-remediation control flow are given a
shallow embedding below; the theorems at the end of the file settle the
specification claims against that embedding.
-/

/-! ## JSON values

A decoded JSON value as handled by the Python `json` module: objects are
ordered key/value sequences (Python `dict` preserves insertion order).  The
mutually inductive presentation keeps every traversal structurally recursive
and hence kernel-computable. -/

mutual
inductive Json where
  | null
  | bool (b : Bool)
  | num (n : Int)
  | str (s : String)
  | arr (xs : JsonList)
  | obj (fs : JsonObj)
deriving Repr, DecidableEq

inductive JsonList where
  | nil
  | cons (hd : Json) (tl : JsonList)
deriving Repr, DecidableEq

inductive JsonObj where
  | nil
  | cons (key : String) (val : Json) (tl : JsonObj)
deriving Repr, DecidableEq
end

/-- `value is None` check used throughout the Python code. -/
def Json.isNull : Json → Bool
  | .null => true
  | _ => false

/-- `isinstance(value, dict)` check. -/
def Json.isObj : Json → Bool
  | .obj _ => true
  | _ => false

/-- `isinstance(value, list)` check. -/
def Json.isArr : Json → Bool
  | .arr _ => true
  | _ => false

/-- The key sequence of a JSON object, in insertion order. -/
def JsonObj.keys : JsonObj → List String
  | .nil => []
  | .cons k _ t => k :: t.keys

/-- Python `dict` lookup on an object produced by the transformer (first
matching key; the transformer never produces duplicate keys). -/
def JsonObj.find? : JsonObj → String → Option Json
  | .nil, _ => none
  | .cons k v t, f => if k = f then some v else t.find? f

/-- The key list of a JSON value when it is an object, `none` otherwise. -/
def Json.objKeys? : Json → Option (List String)
  | .obj fs => some fs.keys
  | _ => none

/-- Python `new_item[key] = value` on a `dict`: replace the value of the first
occurrence of the key in insertion order, or append a fresh entry. -/
def dictInsert : JsonObj → String → Json → JsonObj
  | .nil, k, v => .cons k v .nil
  | .cons k0 v0 t, k, v =>
      if k0 = k then .cons k0 v t else .cons k0 v0 (dictInsert t k v)

/-! ## Character-level string helpers

The Python code manipulates strings with `re`, `str.lower`, `str.split`,
`str.strip` and the `in` substring operator.  These are modelled over
`List Char` so that every operation is structurally recursive. -/

/-- Python `\s` (ASCII whitespace, as occurs in warehouse error text). -/
def wsChar (c : Char) : Bool :=
  c = ' ' || c = '\t' || c = '\n' || c = '\r' || c = '\x0b' || c = '\x0c'

/-- Regex class `[A-Z]`. -/
def isUpperAZ (c : Char) : Bool := 'A' ≤ c && c ≤ 'Z'

/-- Regex class `[a-z]`. -/
def isLowerAZ (c : Char) : Bool := 'a' ≤ c && c ≤ 'z'

/-- Regex class `[0-9]`. -/
def isDigit09 (c : Char) : Bool := '0' ≤ c && c ≤ '9'

/-- Regex class `\w` (ASCII word character). -/
def isWordChar (c : Char) : Bool :=
  isUpperAZ c || isLowerAZ c || isDigit09 c || c = '_'

/-- Python `str.lower()` (ASCII case folding suffices for the names involved). -/
def lowerL (l : List Char) : List Char := l.map Char.toLower

/-- Python substring test `pat in s`. -/
def containsSub (s pat : List Char) : Bool := decide (pat <:+: s)

/-- Python `str.split('.')`: split on every dot, keeping empty segments. -/
def splitOnDot : List Char → List (List Char)
  | [] => [[]]
  | c :: rest =>
    if c = '.' then [] :: splitOnDot rest
    else match splitOnDot rest with
      | [] => [[c]]
      | seg :: segs => (c :: seg) :: segs

/-- Python `field_path.split('.')[-1] if field_path else ""`. -/
def lastSeg (p : String) : String :=
  if p.data = [] then "" else String.mk ((splitOnDot p.data).getLastD [])

/-- Python `path.split('.')[0]` (used for `missing_field_path`). -/
def headSeg (p : String) : String :=
  String.mk ((splitOnDot p.data).headD [])

/-- Python `str.strip()` restricted to ASCII whitespace. -/
def stripL (l : List Char) : List Char :=
  ((l.dropWhile (wsChar ·)).reverse.dropWhile (wsChar ·)).reverse

/-! ## `to_snake_case` (servicetitan_common.py lines 179-185)

```python
def to_snake_case(name):
    name = re.sub(r'(.)([A-Z][a-z]+)', r'\1_\2', name)
    name = re.sub(r'([a-z0-9])([A-Z])', r'\1_\2', name)
    return name.lower()
```

`re.sub` scans left to right for non-overlapping leftmost matches and resumes
after each match.  Both patterns are backtrack-free (each greedy run is
followed by a character its class excludes), so a single left-to-right scan is
an exact model.  `snakeSub1Aux` uses a fuel argument (one unit per emitted
character, so the input length is always enough) to stay structurally
recursive. -/

def snakeSub1Aux : Nat → List Char → List Char
  | 0, l => l
  | _ + 1, [] => []
  | fuel + 1, c :: rest =>
    match rest with
    | u :: l :: rest2 =>
      if c ≠ '\n' && isUpperAZ u && isLowerAZ l then
        c :: '_' :: u :: (l :: rest2).takeWhile (isLowerAZ ·)
          ++ snakeSub1Aux fuel ((l :: rest2).dropWhile (isLowerAZ ·))
      else c :: snakeSub1Aux fuel rest
    | _ => c :: snakeSub1Aux fuel rest

/-- First substitution of `to_snake_case`. -/
def snakeSub1 (l : List Char) : List Char := snakeSub1Aux l.length l

/-- Second substitution of `to_snake_case`. -/
def snakeSub2 : List Char → List Char
  | [] => []
  | [c] => [c]
  | c :: u :: rest2 =>
    if (isLowerAZ c || isDigit09 c) && isUpperAZ u then
      c :: '_' :: u :: snakeSub2 rest2
    else c :: snakeSub2 (u :: rest2)

/-- `to_snake_case` from servicetitan_common.py. -/
def to_snake_case (name : String) : String :=
  String.mk (lowerL (snakeSub2 (snakeSub1 name.data)))

example : to_snake_case "SerialNumbers" = "serial_numbers" := by decide
example : to_snake_case "already_snake" = "already_snake" := by decide
example : to_snake_case "CreatedOn" = "created_on" := by decide
example : to_snake_case "HTMLParser" = "html_parser" := by decide
example : to_snake_case "jobNumber" = "job_number" := by decide

/-! ## `fix_nested_value` (servicetitan_all_json_to_bigquery.py lines 228-281)

The recursive normalizer: converts `null` to `[]` for known array fields
(detected by the last path segment), coerces objects at paths whose lowercase
form contains both "serial" and "number" to an empty array, recurses into
objects (preserving every key verbatim) and arrays (path unchanged), and
returns scalars unchanged. -/

/-- The "should be a list" name heuristic:
`'serial' in field_name_lower and 'number' in field_name_lower`. -/
def serialNumberHeur (path : String) : Bool :=
  containsSub (lowerL path.data) "serial".data
    && containsSub (lowerL path.data) "number".data

/-- Python `f"{field_path}.{k}" if field_path else k`. -/
def nestedPath (path k : String) : String :=
  if path.data = [] then k else String.mk (path.data ++ '.' :: k.data)

mutual
def fix_nested_value (v : Json) (field_path : String) (known : List String) : Json :=
  match v with
  | .null => if lastSeg field_path ∈ known then .arr .nil else .null
  | .obj _fs =>
      if serialNumberHeur field_path then .arr .nil
      else .obj (fixObjEntries _fs field_path known)
  | .arr xs => .arr (fixListElems xs field_path known)
  | .bool b => .bool b
  | .num n => .num n
  | .str s => .str s

def fixListElems (xs : JsonList) (field_path : String) (known : List String) : JsonList :=
  match xs with
  | .nil => .nil
  | .cons h t => .cons (fix_nested_value h field_path known) (fixListElems t field_path known)

def fixObjEntries (fs : JsonObj) (field_path : String) (known : List String) : JsonObj :=
  match fs with
  | .nil => .nil
  | .cons k v t =>
      let np := nestedPath field_path k
      if serialNumberHeur np && v.isObj then
        .cons k (.arr .nil) (fixObjEntries t field_path known)
      else
        .cons k (fix_nested_value v np known) (fixObjEntries t field_path known)
end

example : fix_nested_value .null "items.serialNumbers" ["serialNumbers"] = .arr .nil := by decide
example : fix_nested_value .null "tags" [] = .null := by decide
example :
    fix_nested_value (.obj (.cons "A" (.num 1) .nil)) "serial_numbers" [] = .arr .nil := by
  decide

/-! ## `transform_item` (servicetitan_common.py lines 551-565, identical inline
loop at servicetitan_all_json_to_bigquery.py lines 324-337)

Top-level keys are rewritten to snake_case, values pass through the
normalizer, and a known array field whose normalized value is still `null`
is forced to an empty array before the record is emitted. -/

def transformItemAux (item : JsonObj) (array_fields : List String) (acc : JsonObj) : JsonObj :=
  match item with
  | .nil => acc
  | .cons k v t =>
      let snake_key := to_snake_case k
      let fixed_value := fix_nested_value v snake_key array_fields
      let acc2 :=
        if snake_key ∈ array_fields ∧ fixed_value.isNull then
          dictInsert acc snake_key (.arr .nil)
        else
          dictInsert acc snake_key fixed_value
      transformItemAux t array_fields acc2

def transform_item (item : JsonObj) (array_fields : List String) : JsonObj :=
  transformItemAux item array_fields .nil

example :
    transform_item (.cons "Tags" .null .nil) ["tags"] = .cons "tags" (.arr .nil) .nil := by
  decide
example :
    transform_item (.cons "tags" (.num 5) .nil) ["tags"] = .cons "tags" (.num 5) .nil := by
  decide

/-! ## Framing detection (servicetitan_common.py lines 349-358, identical in
servicetitan_all_json_to_bigquery.py lines 289-298)

```python
first_char = f.read(1)
f.seek(0)
if first_char == '[':   # JSON array
else:                   # newline-delimited JSON
```

The code inspects the very first character of the file (an empty file reads
`''`, which is not `'['`). -/

inductive Framing where
  | array
  | ndjson
deriving Repr, DecidableEq

/-- Framing decision of `fix_json_format`, from the source. -/
def detectFraming (content : String) : Framing :=
  match content.data with
  | c :: _ => if c = '[' then .array else .ndjson
  | [] => .ndjson

/-- Modelled from the spec: the specified framing rule, which inspects the
first NON-whitespace byte (`[` means array framing, anything else means
newline-delimited).  Kept separate from `detectFraming` for comparison. -/
def detectFramingSpec (content : String) : Framing :=
  match content.data.dropWhile (wsChar ·) with
  | c :: _ => if c = '[' then .array else .ndjson
  | [] => .ndjson

/-! ## Streaming reshaper, newline-delimited branch
(servicetitan_common.py lines 522-549)

```python
for line in f_in:
    if line.strip():
        try:
            item = json.loads(line)
            transformed = transform_item(item, repeated_fields)
            f_out.write(json.dumps(transformed, ensure_ascii=False) + '\n')
            items_processed += 1
        except Exception as e:
            if items_processed == 0:
                print(f"... Error parseando línea ...")
            pass
if items_processed == 0:
    print(f"... ERROR: No se procesaron items ...")
else:
    print(f"... Transformación completada ...")
```

`json.loads` is external; it is passed in as an oracle `parse` returning
`none` when the line raises (also covering a line that decodes to a non-dict,
which makes `transform_item` raise inside the same `try`).  The function
prints a diagnostic when nothing was processed but returns normally; the
`Except` result type records that no exception escapes. -/

structure StreamResult where
  outputs : List JsonObj
  itemsProcessed : Nat
  zeroItemsDiagnostic : Bool
deriving Repr, DecidableEq

def streamNdjsonStep (parse : String → Option JsonObj) (array_fields : List String)
    (st : List JsonObj × Nat) (line : String) : List JsonObj × Nat :=
  if stripL line.data = [] then st
  else
    match parse line with
    | some item => (st.1 ++ [transform_item item array_fields], st.2 + 1)
    | none => st

def fix_json_format_streaming_ndjson (parse : String → Option JsonObj)
    (array_fields : List String) (lines : List String) : Except String StreamResult :=
  let r := lines.foldl (streamNdjsonStep parse array_fields) ([], 0)
  .ok ⟨r.1, r.2, r.2 == 0⟩

/-! ## Incremental merge / upsert engine
(servicetitan_all_json_to_bigquery.py lines 749-791 and
servicetitan_common.py lines 1102-1193)

A destination row carries the record identity, the data columns, and the two
ETL bookkeeping columns.  Column values are modelled as a total function from
column name to JSON value (`Json.null` for a column the row does not
populate).  `stagingCols` is the `staging_cols` set of the code: every staging
column except `id` and the `_etl_` columns. -/

structure StagingRow where
  id : Int
  data : String → Json

structure DestRow where
  id : Int
  data : String → Json
  etl_synced : Nat
  etl_operation : String

/-- Relational semantics of the single MERGE statement built at
servicetitan_all_json_to_bigquery.py lines 757-775 (same statement at
servicetitan_common.py lines 1168-1186), under BigQuery MERGE semantics:

* `WHEN MATCHED`: update every staging column from `S`, stamp
  `_etl_synced = CURRENT_TIMESTAMP()`, `_etl_operation = 'UPDATE'`;
* `WHEN NOT MATCHED`: insert the staging columns plus the two ETL columns
  (destination-only columns are left NULL);
* `WHEN NOT MATCHED BY SOURCE`: update only the two ETL columns, stamping
  `_etl_operation = 'DELETE'` — the row is not removed. -/
def mergeSoftDelete (stagingCols : List String) (dest : List DestRow)
    (staging : List StagingRow) (now : Nat) : List DestRow :=
  (dest.map fun t =>
    match staging.find? (fun s => s.id == t.id) with
    | some s =>
        ⟨t.id, fun c => if c ∈ stagingCols then s.data c else t.data c, now, "UPDATE"⟩
    | none => ⟨t.id, t.data, now, "DELETE"⟩)
  ++ ((staging.filter fun s => !(dest.any fun t => t.id == s.id)).map fun s =>
    ⟨s.id, fun c => if c ∈ stagingCols then s.data c else Json.null, now, "INSERT"⟩)

/-- Relational semantics of the bulk first-load INSERT
(servicetitan_common.py lines 1121-1128): every staging row is inserted with
`_etl_operation = 'INSERT'` and `_etl_synced = CURRENT_TIMESTAMP()`. -/
def bulkInsertFirstLoad (stagingCols : List String) (staging : List StagingRow)
    (now : Nat) : List DestRow :=
  staging.map fun s =>
    ⟨s.id, fun c => if c ∈ stagingCols then s.data c else Json.null, now, "INSERT"⟩

/-- `execute_merge_or_insert` (servicetitan_common.py lines 1073-1193):
`is_first_load = final_table.num_rows == 0` selects the bulk INSERT path,
otherwise the incremental MERGE runs. -/
def executeMergeOrInsert (stagingCols : List String) (dest : List DestRow)
    (staging : List StagingRow) (now : Nat) : List DestRow :=
  if dest.length = 0 then bulkInsertFirstLoad stagingCols staging now
  else mergeSoftDelete stagingCols dest staging now

/-- The MERGE statement text built at lines 757-775, as a function of the
interpolated fragments (`update_set`, `insert_cols` and `insert_values` are
comma-joined column lists computed just above the statement). -/
def mergeSqlText (project_id dataset_final table_final dataset_staging table_staging
    update_set insert_cols insert_values : String) : String :=
  "\n            MERGE `" ++ project_id ++ "." ++ dataset_final ++ "." ++ table_final
    ++ "` T\n            USING `" ++ project_id ++ "." ++ dataset_staging ++ "."
    ++ table_staging
    ++ "` S\n            ON T.id = S.id\n            WHEN MATCHED THEN UPDATE SET \n                "
    ++ update_set
    ++ ",\n                T._etl_synced = CURRENT_TIMESTAMP(),\n                T._etl_operation = 'UPDATE'\n            WHEN NOT MATCHED THEN INSERT (\n                "
    ++ insert_cols
    ++ ",\n                _etl_synced, _etl_operation\n            ) VALUES (\n                "
    ++ insert_values
    ++ ",\n                CURRENT_TIMESTAMP(), 'INSERT'\n            )\n            WHEN NOT MATCHED BY SOURCE THEN UPDATE SET\n                T._etl_synced = CURRENT_TIMESTAMP(),\n                T._etl_operation = 'DELETE'\n        "

/-- Substring containment on strings. -/
def strContains (s pat : String) : Prop := pat.data <:+: s.data

theorem strContains_append_left {a pat : String} (b : String) (h : strContains a pat) :
    strContains (a ++ b) pat := by
  unfold strContains at *
  simpa using h.trans (List.prefix_append a.data b.data).isInfix

theorem strContains_append_right {b pat : String} (a : String) (h : strContains b pat) :
    strContains (a ++ b) pat := by
  unfold strContains at *
  simpa using h.trans (List.suffix_append a.data b.data).isInfix

/-! ## Schema fields and the composite (STRUCT) repair
(servicetitan_all_json_to_bigquery.py lines 812-899 and 1141-1210)

`SField` models `bigquery.SchemaField`: a name, a type, a mode and (for
composite fields) the sub-field list.  The `description` metadata plays no
role in the reconciler's logic and is omitted. -/

inductive SField where
  | mk (name : String) (ftype : String) (mode : String) (fields : List SField)
deriving Repr

def SField.name : SField → String
  | .mk n _ _ _ => n

def SField.ftype : SField → String
  | .mk _ t _ _ => t

def SField.mode : SField → String
  | .mk _ _ m _ => m

def SField.fields : SField → List SField
  | .mk _ _ _ fs => fs

/-- Python `{f.name: f for f in fields}` followed by a key lookup: the LAST
field with the given name wins (dict comprehension overwrites). -/
def dictLast (l : List SField) (n : String) : Option SField :=
  l.reverse.find? (fun f => f.name == n)

/-- The sub-field union of lines 850-863 (and identically lines 1172-1187):
keep every destination sub-field in order, replacing those staging also has by
staging's definition, then append the staging-only sub-fields. -/
def mergeStructFields (oldFields newFields : List SField) : List SField :=
  (oldFields.map fun f =>
    match dictLast newFields f.name with
    | some g => g
    | none => f)
  ++ newFields.filter (fun g => (dictLast oldFields g.name).isNone)

/-- The full composite repair of lines 828-884: when the destination holds the
field and BOTH definitions carry a non-empty sub-field list, the sub-fields
are unioned (mode `REPEATED` wins, lines 866-881); in every other case the
staging definition replaces the destination definition wholesale
(the `else` fallback at lines 882-884, and the `if new_struct_field` guard). -/
def repairStructField (fieldName : String) (old? : Option SField) (new : SField) : SField :=
  match old? with
  | some old =>
      if !old.fields.isEmpty && !new.fields.isEmpty then
        if old.mode = "REPEATED" ∨ new.mode = "REPEATED" then
          .mk fieldName "RECORD" "REPEATED" (mergeStructFields old.fields new.fields)
        else
          .mk fieldName old.ftype old.mode (mergeStructFields old.fields new.fields)
      else new
  | none => new

/-! ## Warehouse error-text classifiers

The remediation logic classifies failures by running `re.search` with fixed
patterns over the error text.  Each pattern below is backtrack-free (every
greedy sub-run is followed by a character its class excludes; the single
optional group `(?:ARRAY<)?STRUCT` is expanded into its two alternatives), so
a scanner that attempts an exact match at each successive start position is a
faithful model of `re.search`. -/

/-- Consume a literal case-insensitively (for `re.IGNORECASE` patterns). -/
def dropLitCI : List Char → List Char → Option (List Char)
  | [], s => some s
  | _ :: _, [] => none
  | p :: ps, c :: cs => if p.toLower = c.toLower then dropLitCI ps cs else none

/-- Consume a literal case-sensitively. -/
def dropLitCS : List Char → List Char → Option (List Char)
  | [], s => some s
  | _ :: _, [] => none
  | p :: ps, c :: cs => if p = c then dropLitCS ps cs else none

/-- Consume a non-empty greedy run of characters satisfying `p` (regex `X+`). -/
def takePlus (p : Char → Bool) (s : List Char) : Option (List Char × List Char) :=
  match s.takeWhile p with
  | [] => none
  | run => some (run, s.dropWhile p)

/-- Try an anchored matcher at every start position (`re.search`). -/
def searchOpt {α : Type} (m : List Char → Option α) : List Char → Option α
  | [] => m []
  | c :: rest =>
    match m (c :: rest) with
    | some r => some r
    | none => searchOpt m rest

/-- Anchored `Field:\s*(\w+);\s*Value:\s*NULL` (IGNORECASE),
servicetitan_all_json_to_bigquery.py line 548. -/
def matchRepeatedNullAt (s : List Char) : Option String :=
  match dropLitCI "Field:".data s with
  | none => none
  | some s1 =>
    match takePlus (isWordChar ·) (s1.dropWhile (wsChar ·)) with
    | none => none
    | some (fld, s2) =>
      match s2 with
      | ';' :: s3 =>
        match dropLitCI "Value:".data (s3.dropWhile (wsChar ·)) with
        | none => none
        | some s4 =>
          match dropLitCI "NULL".data (s4.dropWhile (wsChar ·)) with
          | some _ => some (String.mk fld)
          | none => none
      | _ => none

def matchRepeatedNull (msg : String) : Option String :=
  searchOpt matchRepeatedNullAt msg.data

/-- Anchored `non-record field:\s*([\w.]+)` (IGNORECASE), line 552. -/
def matchNonRecordFieldAt (s : List Char) : Option String :=
  match dropLitCI "non-record field:".data s with
  | none => none
  | some s1 =>
    match takePlus (fun c => isWordChar c || c = '.') (s1.dropWhile (wsChar ·)) with
    | none => none
    | some (fld, _) => some (String.mk fld)

def matchNonRecordField (msg : String) : Option String :=
  searchOpt matchNonRecordFieldAt msg.data

/-- Anchored `cannot be assigned to T\.(\w+), which has type (?:ARRAY<)?STRUCT`
(case-sensitive), line 806. -/
def matchStructAssignAt (s : List Char) : Option String :=
  match dropLitCS "cannot be assigned to T.".data s with
  | none => none
  | some s1 =>
    match takePlus (isWordChar ·) s1 with
    | none => none
    | some (fld, s2) =>
      match dropLitCS ", which has type ".data s2 with
      | none => none
      | some s3 =>
        if (dropLitCS "ARRAY<STRUCT".data s3).isSome || (dropLitCS "STRUCT".data s3).isSome
        then some (String.mk fld) else none

def matchStructAssign (msg : String) : Option String :=
  searchOpt matchStructAssignAt msg.data

/-- Anchored `Value of type (\w+) cannot be assigned to T\.(\w+), which has
type (\w+)` (case-sensitive), line 810. -/
def matchTypeAssignAt (s : List Char) : Option (String × String × String) :=
  match dropLitCS "Value of type ".data s with
  | none => none
  | some s1 =>
    match takePlus (isWordChar ·) s1 with
    | none => none
    | some (newT, s2) =>
      match dropLitCS " cannot be assigned to T.".data s2 with
      | none => none
      | some s3 =>
        match takePlus (isWordChar ·) s3 with
        | none => none
        | some (fld, s4) =>
          match dropLitCS ", which has type ".data s4 with
          | none => none
          | some s5 =>
            match takePlus (isWordChar ·) s5 with
            | none => none
            | some (oldT, _) => some (String.mk newT, String.mk fld, String.mk oldT)

def matchTypeAssign (msg : String) : Option (String × String × String) :=
  searchOpt matchTypeAssignAt msg.data

/-- Anchored `Field\s+([\w.]+)\s+is missing in new schema` (IGNORECASE),
line 1141. -/
def matchMissingFieldAt (s : List Char) : Option String :=
  match dropLitCI "Field".data s with
  | none => none
  | some s1 =>
    match takePlus (wsChar ·) s1 with
    | none => none
    | some (_, s2) =>
      match takePlus (fun c => isWordChar c || c = '.') s2 with
      | none => none
      | some (path, s3) =>
        match takePlus (wsChar ·) s3 with
        | none => none
        | some (_, s4) =>
          match dropLitCI "is missing in new schema".data s4 with
          | some _ => some (String.mk path)
          | none => none

def matchMissingField (msg : String) : Option String :=
  searchOpt matchMissingFieldAt msg.data

example : matchRepeatedNull "oops. Field: permissions; Value: NULL" = some "permissions" := by
  decide
example : matchRepeatedNull "boom" = none := by decide
example :
    matchNonRecordField "JSON object specified for non-record field: items.serialNumbers"
      = some "items.serialNumbers" := by decide
example :
    matchStructAssign
      "Value of type STRUCT<x INT64> cannot be assigned to T.address, which has type STRUCT<y INT64>"
      = some "address" := by decide
example :
    matchTypeAssign "Value of type INT64 cannot be assigned to T.purchase_order_id, which has type STRING"
      = some ("INT64", "purchase_order_id", "STRING") := by decide
example :
    matchMissingField "Field address.isMilitary is missing in new schema"
      = some "address.isMilitary" := by decide

/-! ## Staging-load control flow with self-healing retry
(servicetitan_all_json_to_bigquery.py lines 530-618)

The load is attempted once; on failure the error text is classified; when a
pattern is recognized the data is re-transformed with the extracted field
forced into `repeated_fields` and the load is retried exactly once; an
unrecognized error, or a failing retry, is terminal for the endpoint.  The
outcome of each load attempt is an oracle `attempt : Nat → Option String`
(`none` = success, `some e` = failure with error text `e`). -/

structure LoadFlowResult where
  success : Bool
  attempts : Nat
  reported : Option String
  remediatedField : Option String
deriving Repr, DecidableEq

def loadStagingFlow (attempt : Nat → Option String) : LoadFlowResult :=
  match attempt 0 with
  | none => ⟨true, 1, none, none⟩
  | some e =>
    match (matchRepeatedNull e).orElse (fun _ => matchNonRecordField e) with
    | some fld =>
      let field_name := if '.' ∈ fld.data then lastSeg fld else fld
      match attempt 1 with
      | none => ⟨true, 2, none, some field_name⟩
      | some e2 =>
          ⟨false, 2,
           some ("Error cargando a tabla staging después de limpiar " ++ fld ++ ": " ++ e2),
           some field_name⟩
    | none => ⟨false, 1, some ("Error cargando a tabla staging: " ++ e), none⟩

/-! ## Merge control flow with reactive schema reconciliation
(servicetitan_all_json_to_bigquery.py lines 777-1301)

On a MERGE failure the error text is classified into three sub-classes
(struct incompatibility, scalar type mismatch, missing nested field), each
remediated at most once; the struct sub-class replaces the retry by a
copy-and-backfill migration.  `attempts` counts MERGE statement executions
plus migration executions; `remediations` counts schema-repair attempts. -/

structure MergeEnv where
  attempt : Nat → Option String
  stagingHasField : String → Bool
  bothStructs : String → Bool
  updateSchema : Option String
  migration : Option String

structure MergeFlowResult where
  success : Bool
  attempts : Nat
  remediations : Nat
  reported : Option String
deriving Repr, DecidableEq

def mergeFlow (env : MergeEnv) : MergeFlowResult :=
  match env.attempt 0 with
  | none => ⟨true, 1, 0, none⟩
  | some e =>
    match matchStructAssign e with
    | some fld =>
      if env.stagingHasField fld then
        match env.updateSchema with
        | some err =>
            ⟨false, 1, 1,
             some ("Error actualizando esquema STRUCT " ++ fld ++ ": " ++ err
               ++ ". No se pudo ejecutar MERGE.")⟩
        | none =>
          match env.migration with
          | none => ⟨true, 2, 1, none⟩
          | some err =>
              ⟨false, 2, 1,
               some ("Error en migración después de actualizar " ++ fld ++ ": " ++ err)⟩
      else
        ⟨false, 1, 0,
         some ("Error en MERGE: campo STRUCT " ++ fld ++ " no encontrado en staging. " ++ e)⟩
    | none =>
      match matchTypeAssign e with
      | some (_newT, fld, _oldT) =>
        if env.stagingHasField fld then
          match env.updateSchema with
          | some err =>
              ⟨false, 1, 1,
               some ("Error actualizando esquema de tipo para " ++ fld ++ ": " ++ err
                 ++ ". No se pudo ejecutar MERGE.")⟩
          | none =>
            match env.attempt 1 with
            | none => ⟨true, 2, 1, none⟩
            | some e2 =>
                ⟨false, 2, 1,
                 some ("Error en MERGE después de actualizar tipo de " ++ fld ++ ": " ++ e2)⟩
        else
          ⟨false, 1, 0,
           some ("Error en MERGE: campo " ++ fld ++ " no encontrado en staging. " ++ e)⟩
      | none =>
        match matchMissingField e with
        | some path =>
          if '.' ∈ path.data then
            if env.bothStructs (headSeg path) then
              match env.updateSchema with
              | some err =>
                  ⟨false, 1, 1,
                   some ("Error actualizando esquema STRUCT fusionado " ++ headSeg path ++ ": "
                     ++ err ++ ". No se pudo ejecutar MERGE.")⟩
              | none =>
                match env.attempt 1 with
                | none => ⟨true, 2, 1, none⟩
                | some e2 =>
                    ⟨false, 2, 1,
                     some ("Error en MERGE después de fusionar " ++ headSeg path ++ ": " ++ e2)⟩
            else
              ⟨false, 1, 0,
               some ("Error en MERGE: no se pudo fusionar campo " ++ path ++ ". " ++ e)⟩
          else
            ⟨false, 1, 0,
             some ("Error en MERGE o borrado de staging: " ++ e
               ++ ". La tabla staging NO se borra para depuración.")⟩
        | none => ⟨false, 1, 0, some e⟩

/-! ## Centralized audit logging
(servicetitan_all_json_to_bigquery.py lines 202-226, same wrapper with a
`source` parameter at servicetitan_common.py lines 247-280)

The whole body — client construction, row construction, insert — runs inside
`try`, and `except Exception` turns any failure into a printed diagnostic.
Client construction and the insert are external effects and enter as oracles;
`json.dumps` enters as an oracle serializer.  The result is the list of
printed diagnostics; the `Except` result type records whether an exception
escapes to the caller. -/

/-- Python truthiness of a JSON value (used by `if company_id` / `if info`). -/
def Json.pyTruthy : Json → Bool
  | .null => false
  | .bool b => b
  | .num n => n != 0
  | .str s => !s.isEmpty
  | .arr .nil => false
  | .arr _ => true
  | .obj .nil => false
  | .obj _ => true

def LOGS_DATASET : String := "logs"
def LOGS_TABLE : String := "etl_servicetitan"

structure LogRow where
  timestamp : String
  company_id : Option String
  company_name : Option String
  project_id : Option String
  endpoint : Option String
  event_type : String
  event_title : String
  event_message : String
  source : String
  info : Option String
deriving Repr, DecidableEq

/-- The `try ... except Exception as e: print(...)` wrapper: an exception of
the body becomes a printed diagnostic and the function returns normally. -/
def tryDiag (body : Except String (List String)) : Except String (List String) :=
  match body with
  | .ok diags => .ok diags
  | .error err => .ok ["❌ Error en logging: " ++ err]

def log_event_bq
    (newClient : Except String Unit)
    (insertRowsJson : String → LogRow → Except String (List String))
    (nowIso : String) (dumps : Json → String)
    (company_id : Option Int) (company_name : Option String)
    (project_id : Option String) (endpoint : Option String)
    (event_type : String) (event_title : String) (event_message : String)
    (info : Option Json) : Except String (List String) :=
  let body : Except String (List String) :=
    newClient.bind fun _ =>
      let table_id := LOGS_DATASET ++ "." ++ LOGS_TABLE
      let row : LogRow :=
        ⟨nowIso,
         match company_id with
         | some n => if n = 0 then none else some (toString n)
         | none => none,
         company_name, project_id, endpoint, event_type, event_title, event_message,
         "servicetitan_all_json_to_bigquery",
         match info with
         | some j => if j.pyTruthy then some (dumps j) else none
         | none => none⟩
      (insertRowsJson table_id row).bind fun errs =>
        if errs.isEmpty then .ok []
        else .ok ["❌ Error insertando log en BigQuery: " ++ String.intercalate ", " errs]
  tryDiag body

/-! # Claims

Each claim of the specification is settled by one theorem below (with a
counterexample theorem where the claim had to be corrected, and a witness
theorem instantiating every theorem that carries a hypothesis). -/

/-! ## C4: null handling of the normalizer -/

/-- C4.  For every input value and path, when the normalizer receives null it
returns an empty list if the last segment of the path names a field in
`known_list_fields`, and returns null unchanged otherwise. -/
theorem c4_null_normalization (path : String) (ks : List String) :
    (lastSeg path ∈ ks → fix_nested_value .null path ks = .arr .nil)
  ∧ (lastSeg path ∉ ks → fix_nested_value .null path ks = .null) := by
  constructor <;> intro h <;> simp [fix_nested_value, h]

/-- Witness for C4: a known list field coerces null to `[]`, an unknown
field leaves null unchanged. -/
theorem c4_null_normalization_witness :
    fix_nested_value .null "items.serialNumbers" ["serialNumbers"] = .arr .nil
  ∧ fix_nested_value .null "tags" ["serialNumbers"] = .null :=
  ⟨(c4_null_normalization "items.serialNumbers" ["serialNumbers"]).1 (by decide),
   (c4_null_normalization "tags" ["serialNumbers"]).2 (by decide)⟩

/-! ## C9: framing detection -/

/-- Counterexample for C9: a file whose first byte is whitespace but whose
first non-whitespace byte is `[` is processed as newline-delimited JSON by
the code, while the specified rule (first NON-whitespace byte) selects array
framing. -/
theorem c9_counterexample :
    detectFraming " [" = .ndjson
  ∧ detectFramingSpec " [" = .array
  ∧ detectFraming " [" ≠ detectFramingSpec " [" := by
  refine ⟨rfl, rfl, by decide⟩

/-- C9 (amended).  The reshaper decides the framing from the FIRST byte of
the file: `[` selects array framing and any other first byte (or an empty
file) selects newline-delimited framing; leading whitespace before a `[` is
not skipped. -/
theorem c9_framing_first_byte (content : String) :
    (detectFraming content = .array ↔ content.data.head? = some '[')
  ∧ (detectFraming content = .ndjson ↔ content.data.head? ≠ some '[') := by
  unfold detectFraming
  match content, content.data with
  | c, [] => simp
  | c, x :: rest =>
    by_cases hx : x = '['
    · subst hx; simp
    · simp [hx]

/-! ## C10: the audit logger never raises -/

theorem tryDiag_isOk (body : Except String (List String)) : (tryDiag body).isOk = true := by
  cases body <;> rfl

/-- C10.  `log_event_bq` never propagates an exception: for every behaviour of
the warehouse client constructor and of the row insert (and any argument
values), it returns normally, and a client-construction failure is turned
into a printed diagnostic carrying the original error text. -/
theorem c10_log_event_never_raises
    (newClient : Except String Unit)
    (insertRowsJson : String → LogRow → Except String (List String))
    (nowIso : String) (dumps : Json → String)
    (company_id : Option Int) (company_name : Option String)
    (project_id : Option String) (endpoint : Option String)
    (event_type : String) (event_title : String) (event_message : String)
    (info : Option Json) :
    (log_event_bq newClient insertRowsJson nowIso dumps company_id company_name
        project_id endpoint event_type event_title event_message info).isOk = true
  ∧ (∀ err, log_event_bq (.error err) insertRowsJson nowIso dumps company_id company_name
        project_id endpoint event_type event_title event_message info
      = .ok ["❌ Error en logging: " ++ err]) := by
  constructor
  · unfold log_event_bq
    exact tryDiag_isOk _
  · intro err
    rfl

/-! ## C3: first-load bulk INSERT vs MERGE against an empty destination -/

/-- C3.  The bulk first-load path (taken when the destination holds zero
rows) produces exactly the same destination rows as the three-branch MERGE
run against that same empty destination. -/
theorem c3_first_load_bulk_path_equiv (stagingCols : List String)
    (staging : List StagingRow) (now : Nat) :
    executeMergeOrInsert stagingCols [] staging now
      = mergeSoftDelete stagingCols [] staging now
  ∧ bulkInsertFirstLoad stagingCols staging now
      = mergeSoftDelete stagingCols [] staging now := by
  have h : mergeSoftDelete stagingCols [] staging now
      = bulkInsertFirstLoad stagingCols staging now := by
    unfold mergeSoftDelete bulkInsertFirstLoad
    simp
  exact ⟨by simp [executeMergeOrInsert, h], h.symm⟩

/-! ## C8: streaming reshaper failure semantics -/

/-- The records the newline-delimited streaming loop successfully processes:
non-blank lines whose parse succeeds, transformed in order. -/
def ndjsonProcessed (parse : String → Option JsonObj) (array_fields : List String)
    (lines : List String) : List JsonObj :=
  lines.filterMap fun line =>
    if stripL line.data = [] then none
    else (parse line).map (fun item => transform_item item array_fields)

theorem streamNdjson_foldl (parse : String → Option JsonObj) (af : List String)
    (lines : List String) (acc : List JsonObj × Nat) :
    lines.foldl (streamNdjsonStep parse af) acc
      = (acc.1 ++ ndjsonProcessed parse af lines,
         acc.2 + (ndjsonProcessed parse af lines).length) := by
  induction lines generalizing acc with
  | nil => simp [ndjsonProcessed]
  | cons l ls ih =>
    rw [List.foldl_cons, ih]
    unfold streamNdjsonStep ndjsonProcessed
    by_cases hb : stripL l.data = []
    · simp [hb]
    · cases hp : parse l with
      | none => simp [hb, hp]
      | some item => simp [hb, hp]; omega

/-- Counterexample for C8: an invocation that processes zero records is NOT
treated as a hard failure — the function only prints a diagnostic and
returns normally with an empty output. -/
theorem c8_counterexample :
    fix_json_format_streaming_ndjson (fun _ => none) [] ["not json"] = .ok ⟨[], 0, true⟩
  ∧ (fix_json_format_streaming_ndjson (fun _ => none) [] ["not json"]).isOk = true := by
  exact ⟨rfl, rfl⟩

/-- C8 (amended).  In streaming mode a malformed record is skipped and
processing continues with the remaining lines; an invocation that ends with
zero successfully-processed records emits an error diagnostic but still
returns normally (it does not fail), producing an empty output file. -/
theorem c8_streaming_skip_and_return (parse : String → Option JsonObj)
    (af : List String) (lines : List String) :
    fix_json_format_streaming_ndjson parse af lines
      = .ok ⟨ndjsonProcessed parse af lines,
             (ndjsonProcessed parse af lines).length,
             (ndjsonProcessed parse af lines).length == 0⟩ := by
  unfold fix_json_format_streaming_ndjson
  rw [streamNdjson_foldl]
  simp

/-! ## C5: known list fields are never emitted as null -/

theorem find?_dictInsert : ∀ (acc : JsonObj) (k : String) (v : Json) (f : String),
    (dictInsert acc k v).find? f = if k = f then some v else acc.find? f
  | .nil, k, v, f => by
      by_cases h : k = f <;> simp [dictInsert, JsonObj.find?, h]
  | .cons k0 v0 t, k, v, f => by
      by_cases h1 : k0 = k
      · subst h1
        by_cases h2 : k0 = f <;> simp [dictInsert, JsonObj.find?, h2]
      · by_cases h2 : k0 = f
        · subst h2
          have h3 : ¬k = k0 := fun he => h1 he.symm
          simp [dictInsert, JsonObj.find?, h1, h3]
        · by_cases h3 : k = f
          · subst h3
            simp [dictInsert, JsonObj.find?, h1, h2, find?_dictInsert t k v k]
          · simp [dictInsert, JsonObj.find?, h1, h2, h3, find?_dictInsert t k v f]

theorem transformItemAux_inv : ∀ (item : JsonObj) (af : List String) (acc : JsonObj),
    (∀ f v, f ∈ af → acc.find? f = some v → v.isNull = false) →
    ∀ f v, f ∈ af → (transformItemAux item af acc).find? f = some v → v.isNull = false
  | .nil, _af, _acc, hacc => hacc
  | .cons k v0 t, af, acc, hacc => by
      intro f v hf hfind
      rw [transformItemAux] at hfind
      refine transformItemAux_inv t af _ ?_ f v hf hfind
      intro f2 v2 hf2 hfind2
      by_cases hcond : to_snake_case k ∈ af ∧ (fix_nested_value v0 (to_snake_case k) af).isNull
      · rw [if_pos hcond, find?_dictInsert] at hfind2
        by_cases hk : to_snake_case k = f2
        · simp [hk] at hfind2
          subst hfind2
          rfl
        · rw [if_neg hk] at hfind2
          exact hacc f2 v2 hf2 hfind2
      · rw [if_neg hcond, find?_dictInsert] at hfind2
        by_cases hk : to_snake_case k = f2
        · rw [if_pos hk, Option.some.injEq] at hfind2
          subst hfind2
          rcases not_and_or.mp hcond with hna | hnn
          · exact absurd (hk ▸ hf2) hna
          · simpa using hnn
        · rw [if_neg hk] at hfind2
          exact hacc f2 v2 hf2 hfind2

/-- C5 (amended).  For every record and every field name in
`known_list_fields`, the emitted canonical record never binds that field to
null: a null value for a known list field is forced to an empty list before
the record is written (a non-null value is kept as normalized, and need not
be a list). -/
theorem c5_known_list_field_never_null (item : JsonObj) (af : List String)
    (f : String) (hf : f ∈ af) (v : Json)
    (hfind : (transform_item item af).find? f = some v) : v.isNull = false :=
  transformItemAux_inv item af .nil (by intro f2 v2 _ h; cases h) f v hf hfind

/-- Witness for C5: a known list field arriving as null is emitted as `[]`,
which is not null. -/
theorem c5_known_list_field_never_null_witness :
    (transform_item (.cons "Tags" .null .nil) ["tags"]).find? "tags" = some (.arr .nil)
  ∧ (Json.arr .nil).isNull = false := by
  have h : (transform_item (.cons "Tags" .null .nil) ["tags"]).find? "tags"
      = some (.arr .nil) := by decide
  exact ⟨h, c5_known_list_field_never_null _ ["tags"] "tags" (by decide) _ h⟩

/-- Counterexample for C5: a known list field whose input value is a non-null
scalar is emitted bound to that scalar — present, but neither absent nor a
list, refuting the claim's "either absent or a (possibly empty) list". -/
theorem c5_counterexample :
    (transform_item (.cons "tags" (.num 5) .nil) ["tags"]).find? "tags" = some (.num 5)
  ∧ (Json.num 5).isArr = false
  ∧ (Json.num 5).isNull = false := by decide

/-! ## C6: key casing — snake_case at top level, verbatim in nested structs -/

theorem keys_dictInsert : ∀ (acc : JsonObj) (k : String) (v : Json),
    (dictInsert acc k v).keys = if k ∈ acc.keys then acc.keys else acc.keys ++ [k]
  | .nil, k, v => by simp [dictInsert, JsonObj.keys]
  | .cons k0 v0 t, k, v => by
      by_cases h1 : k0 = k
      · subst h1
        simp [dictInsert, JsonObj.keys]
      · have h2 : ¬(k = k0) := fun he => h1 he.symm
        by_cases h3 : k ∈ t.keys <;>
          simp [dictInsert, JsonObj.keys, h1, h2, h3, keys_dictInsert t k v]

theorem transformItemAux_keys_mem : ∀ (item : JsonObj) (af : List String) (acc : JsonObj)
    (k : String),
    k ∈ (transformItemAux item af acc).keys
      ↔ k ∈ acc.keys ∨ ∃ k0, k0 ∈ item.keys ∧ k = to_snake_case k0
  | .nil, af, acc, k => by simp [transformItemAux, JsonObj.keys]
  | .cons k1 v1 t, af, acc, k => by
      rw [transformItemAux]
      have step : ∀ w : Json, k ∈ (transformItemAux t af (dictInsert acc (to_snake_case k1) w)).keys
          ↔ k ∈ acc.keys ∨ ∃ k0, k0 ∈ (JsonObj.cons k1 v1 t).keys ∧ k = to_snake_case k0 := by
        intro w
        rw [transformItemAux_keys_mem t af _ k]
        have hins : k ∈ (dictInsert acc (to_snake_case k1) w).keys
            ↔ k ∈ acc.keys ∨ k = to_snake_case k1 := by
          rw [keys_dictInsert]
          by_cases hmem : to_snake_case k1 ∈ acc.keys
          · rw [if_pos hmem]
            constructor
            · exact Or.inl
            · rintro (h | rfl)
              · exact h
              · exact hmem
          · rw [if_neg hmem]
            simp
        rw [hins]
        simp only [JsonObj.keys, List.mem_cons]
        constructor
        · rintro ((h | rfl) | ⟨k0, hk0, rfl⟩)
          · exact Or.inl h
          · exact Or.inr ⟨k1, Or.inl rfl, rfl⟩
          · exact Or.inr ⟨k0, Or.inr hk0, rfl⟩
        · rintro (h | ⟨k0, hk0 | hk0, rfl⟩)
          · exact Or.inl (Or.inl h)
          · subst hk0
            exact Or.inl (Or.inr rfl)
          · exact Or.inr ⟨k0, hk0, rfl⟩
      by_cases hcond : to_snake_case k1 ∈ af ∧ (fix_nested_value v1 (to_snake_case k1) af).isNull
      · rw [if_pos hcond]
        exact step _
      · rw [if_neg hcond]
        exact step _

theorem fixObjEntries_keys : ∀ (fs : JsonObj) (path : String) (ks : List String),
    (fixObjEntries fs path ks).keys = fs.keys
  | .nil, _, _ => rfl
  | .cons k v t, path, ks => by
      rw [fixObjEntries]
      by_cases h : serialNumberHeur (nestedPath path k) && v.isObj <;>
        simp [h, JsonObj.keys, fixObjEntries_keys t path ks]

/-- C6 (amended).  The reshaper rewrites every top-level key to exactly the
snake_case transform of that key (the output key set is precisely the
snake_case image of the input key set); a nested composite value that is NOT
at a path matching the serial+number heuristic keeps its key sequence
verbatim — original casing and order; arrays are normalized element-wise with
an unchanged path; a composite at a heuristic-matching path, however, is
replaced by an empty list, dropping its keys. -/
theorem c6_key_casing (item : JsonObj) (af : List String) (fs : JsonObj)
    (path : String) (ks : List String) (xs : JsonList) :
    (∀ k, k ∈ (transform_item item af).keys
        ↔ ∃ k0, k0 ∈ item.keys ∧ k = to_snake_case k0)
  ∧ (serialNumberHeur path = false →
      (fix_nested_value (.obj fs) path ks).objKeys? = some fs.keys)
  ∧ (fix_nested_value (.arr xs) path ks = .arr (fixListElems xs path ks))
  ∧ (serialNumberHeur path = true → fix_nested_value (.obj fs) path ks = .arr .nil) := by
  refine ⟨?_, ?_, ?_, ?_⟩
  · intro k
    rw [transform_item, transformItemAux_keys_mem]
    simp [JsonObj.keys]
  · intro h
    rw [fix_nested_value, if_neg (by simp [h])]
    simp [Json.objKeys?, fixObjEntries_keys]
  · rw [fix_nested_value]
  · intro h
    rw [fix_nested_value, if_pos (by simp [h])]

/-- Witness for C6: a nested struct away from the heuristic keeps its key
"CamelKey" verbatim; a struct at a serial+number path is coerced away. -/
theorem c6_key_casing_witness :
    (fix_nested_value (.obj (.cons "CamelKey" .null .nil)) "profile" []).objKeys?
      = some ["CamelKey"]
  ∧ fix_nested_value (.obj (.cons "A" .null .nil)) "serial_numbers" [] = .arr .nil := by
  refine ⟨?_, ?_⟩
  · exact (c6_key_casing .nil [] (.cons "CamelKey" .null .nil) "profile" [] .nil).2.1
      (by decide)
  · exact (c6_key_casing .nil [] (.cons "A" .null .nil) "serial_numbers" [] .nil).2.2.2
      (by decide)

/-- Counterexample for C6: a nested struct under a top-level key matching the
serial+number heuristic is coerced to an empty list, so its key "A" is not
returned at all (refuting "every nested key is returned with its original
casing unchanged"). -/
theorem c6_counterexample :
    transform_item (.cons "SerialNumbers" (.obj (.cons "A" (.num 1) .nil)) .nil) []
      = .cons "serial_numbers" (.arr .nil) .nil
  ∧ (Json.obj (.cons "A" (.num 1) .nil)).objKeys? = some ["A"]
  ∧ (Json.arr .nil).objKeys? = none := by decide

/-! ## C2: composite (STRUCT) repair — sub-field union and monotonicity -/

theorem dictLast_some {l : List SField} {n : String} {g : SField}
    (h : dictLast l n = some g) : g ∈ l ∧ g.name = n := by
  unfold dictLast at h
  refine ⟨List.mem_reverse.mp (List.mem_of_find?_eq_some h), ?_⟩
  have := List.find?_some h
  simpa using this

theorem dictLast_none {l : List SField} {n : String}
    (h : dictLast l n = none) : ∀ g ∈ l, g.name ≠ n := by
  unfold dictLast at h
  intro g hg
  have := List.find?_eq_none.mp h g (List.mem_reverse.mpr hg)
  simpa using this

/-- The per-destination-sub-field replacement step of the union: staging's
definition when staging has a sub-field of that name, the destination's own
definition otherwise. -/
def pickField (new : List SField) (f : SField) : SField :=
  match dictLast new f.name with
  | some g => g
  | none => f

theorem mergeStructFields_eq (old new : List SField) :
    mergeStructFields old new
      = old.map (pickField new) ++ new.filter (fun g => (dictLast old g.name).isNone) := rfl

theorem pickField_name (new : List SField) (f : SField) :
    (pickField new f).name = f.name := by
  unfold pickField
  cases hd : dictLast new f.name with
  | some g => exact (dictLast_some hd).2
  | none => rfl

theorem pickField_cases (new : List SField) (f : SField) :
    pickField new f ∈ new ∨ (pickField new f = f ∧ dictLast new f.name = none) := by
  unfold pickField
  cases hd : dictLast new f.name with
  | some g => exact Or.inl (dictLast_some hd).1
  | none => exact Or.inr ⟨rfl, rfl⟩

/-- The merged sub-field name set is exactly the union of the two sides. -/
theorem mergeStructFields_names (old new : List SField) (n : String) :
    n ∈ (mergeStructFields old new).map SField.name
      ↔ n ∈ old.map SField.name ∨ n ∈ new.map SField.name := by
  have hold : ∀ m, m ∈ old.map SField.name → m ∈ (mergeStructFields old new).map SField.name := by
    intro m hm
    rcases List.mem_map.mp hm with ⟨f0, hf0, rfl⟩
    rw [mergeStructFields_eq]
    exact List.mem_map.mpr
      ⟨pickField new f0, List.mem_append_left _ (List.mem_map.mpr ⟨f0, hf0, rfl⟩),
       pickField_name new f0⟩
  constructor
  · intro h
    rcases List.mem_map.mp h with ⟨f, hf, rfl⟩
    rw [mergeStructFields_eq] at hf
    rcases List.mem_append.mp hf with hf1 | hf2
    · rcases List.mem_map.mp hf1 with ⟨f0, hf0, rfl⟩
      rw [pickField_name]
      exact Or.inl (List.mem_map.mpr ⟨f0, hf0, rfl⟩)
    · exact Or.inr (List.mem_map.mpr ⟨f, List.mem_of_mem_filter hf2, rfl⟩)
  · rintro (h | h)
    · exact hold n h
    · rcases List.mem_map.mp h with ⟨g, hg, rfl⟩
      cases hd : dictLast old g.name with
      | some f0 =>
        rcases dictLast_some hd with ⟨hf0mem, hf0name⟩
        exact hold g.name (hf0name ▸ List.mem_map.mpr ⟨f0, hf0mem, rfl⟩)
      | none =>
        refine List.mem_map.mpr ⟨g, ?_, rfl⟩
        rw [mergeStructFields_eq]
        exact List.mem_append_right _ (List.mem_filter.mpr ⟨hg, by simp [hd]⟩)

/-- Every merged sub-field is either staging's definition, or a
destination-only sub-field whose name staging does not carry (staging wins on
common names). -/
theorem mergeStructFields_mem (old new : List SField) (f : SField)
    (h : f ∈ mergeStructFields old new) :
    f ∈ new ∨ (f ∈ old ∧ f.name ∉ new.map SField.name) := by
  rw [mergeStructFields_eq] at h
  rcases List.mem_append.mp h with h1 | h2
  · rcases List.mem_map.mp h1 with ⟨f0, hf0, rfl⟩
    rcases pickField_cases new f0 with hnew | ⟨heq, hnone⟩
    · exact Or.inl hnew
    · rw [heq]
      refine Or.inr ⟨hf0, ?_⟩
      intro hmem
      rcases List.mem_map.mp hmem with ⟨g, hg, hgname⟩
      exact dictLast_none hnone g hg hgname
  · exact Or.inl (List.mem_of_mem_filter h2)

/-- Iterating the union over any sequence of staging schemas never drops a
sub-field name. -/
theorem mergeStructFields_foldl_mono (seq : List (List SField)) (init : List SField)
    (n : String) (h : n ∈ init.map SField.name) :
    n ∈ (seq.foldl mergeStructFields init).map SField.name := by
  induction seq generalizing init with
  | nil => exact h
  | cons s rest ih =>
    exact ih (mergeStructFields init s) ((mergeStructFields_names init s n).mpr (Or.inl h))

/-- C2 (amended).  When the destination holds the composite column and BOTH
the destination's and staging's definitions carry a non-empty sub-field list,
the repaired composite's sub-field set is exactly the union of destination's
and staging's sub-fields, with staging's definition chosen for names present
in both, and iterating such unions never drops a sub-field name; when either
side has no sub-fields (for example when staging's column is no longer a
struct), the fallback replaces the destination definition wholesale by
staging's, which can drop sub-fields. -/
theorem c2_struct_union (fieldName : String) (old new : SField)
    (h1 : old.fields ≠ []) (h2 : new.fields ≠ []) :
    ((repairStructField fieldName (some old) new).fields
        = mergeStructFields old.fields new.fields)
  ∧ (∀ n, n ∈ (mergeStructFields old.fields new.fields).map SField.name
        ↔ n ∈ old.fields.map SField.name ∨ n ∈ new.fields.map SField.name)
  ∧ (∀ f ∈ mergeStructFields old.fields new.fields,
        f ∈ new.fields ∨ (f ∈ old.fields ∧ f.name ∉ new.fields.map SField.name))
  ∧ (∀ seq : List (List SField), ∀ n, n ∈ old.fields.map SField.name →
        n ∈ (seq.foldl mergeStructFields old.fields).map SField.name) := by
  refine ⟨?_, mergeStructFields_names old.fields new.fields,
          mergeStructFields_mem old.fields new.fields,
          fun seq n hn => mergeStructFields_foldl_mono seq old.fields n hn⟩
  have e1 : old.fields.isEmpty = false := by
    cases h : old.fields with
    | nil => exact absurd h h1
    | cons f t => rfl
  have e2 : new.fields.isEmpty = false := by
    cases h : new.fields with
    | nil => exact absurd h h2
    | cons f t => rfl
  have hc : (!old.fields.isEmpty && !new.fields.isEmpty) = true := by
    rw [e1, e2]
    rfl
  simp only [repairStructField, hc, if_true]
  split <;> rfl

/-- Counterexample for C2: a merge failure in which staging's definition of
the column is no longer a struct (here a plain STRING, a shape the struct
error pattern still matches when the destination side is a STRUCT) takes the
fallback branch, which drops the destination's sub-field `city` — the result
is not the sub-field union, and monotonicity fails. -/
theorem c2_counterexample :
    (repairStructField "address"
        (some (.mk "address" "STRUCT" "NULLABLE" [.mk "city" "STRING" "NULLABLE" []]))
        (.mk "address" "STRING" "NULLABLE" [])).fields.map SField.name = []
  ∧ "city" ∈ (SField.mk "address" "STRUCT" "NULLABLE"
        [.mk "city" "STRING" "NULLABLE" []]).fields.map SField.name
  ∧ "city" ∉ (repairStructField "address"
        (some (.mk "address" "STRUCT" "NULLABLE" [.mk "city" "STRING" "NULLABLE" []]))
        (.mk "address" "STRING" "NULLABLE" [])).fields.map SField.name := by
  refine ⟨rfl, by decide, by decide⟩

/-- Witness for C2: with destination sub-fields `{city, zip}` and staging
sub-fields `{zip, state}` (staging's `zip` being REPEATED), the repaired
sub-field list is the union computed by `mergeStructFields`, and `city`
survives in it. -/
theorem c2_struct_union_witness :
    ((repairStructField "address"
        (some (.mk "address" "STRUCT" "NULLABLE"
          [.mk "city" "STRING" "NULLABLE" [], .mk "zip" "STRING" "NULLABLE" []]))
        (.mk "address" "STRUCT" "NULLABLE"
          [.mk "zip" "STRING" "REPEATED" [], .mk "state" "STRING" "NULLABLE" []])).fields
      = mergeStructFields
          [SField.mk "city" "STRING" "NULLABLE" [], SField.mk "zip" "STRING" "NULLABLE" []]
          [SField.mk "zip" "STRING" "REPEATED" [], SField.mk "state" "STRING" "NULLABLE" []])
  ∧ ("city" ∈ (mergeStructFields
          [SField.mk "city" "STRING" "NULLABLE" [], SField.mk "zip" "STRING" "NULLABLE" []]
          [SField.mk "zip" "STRING" "REPEATED" [], SField.mk "state" "STRING" "NULLABLE" []]).map
        SField.name) := by
  have h := c2_struct_union "address"
    (.mk "address" "STRUCT" "NULLABLE"
      [.mk "city" "STRING" "NULLABLE" [], .mk "zip" "STRING" "NULLABLE" []])
    (.mk "address" "STRUCT" "NULLABLE"
      [.mk "zip" "STRING" "REPEATED" [], .mk "state" "STRING" "NULLABLE" []])
    (by simp [SField.fields]) (by simp [SField.fields])
  exact ⟨h.1, (h.2.1 "city").mpr (Or.inl (by decide))⟩

/-! ## C1: the three-branch soft-delete MERGE -/

theorem find?_id_unique {staging : List StagingRow} {tid : Int} {s : StagingRow}
    (hnd : (staging.map StagingRow.id).Nodup) (hs : s ∈ staging) (hid : s.id = tid) :
    staging.find? (fun s2 => s2.id == tid) = some s := by
  induction staging with
  | nil => cases hs
  | cons h0 rest ih =>
    rw [List.map_cons, List.nodup_cons] at hnd
    rcases List.mem_cons.mp hs with rfl | hmem
    · rw [List.find?_cons_of_pos _ (by simpa using hid)]
    · have hne : h0.id ≠ tid := by
        intro he
        exact hnd.1 (by
          rw [he, ← hid]
          exact List.mem_map.mpr ⟨s, hmem, rfl⟩)
      rw [List.find?_cons_of_neg _ (by simpa using hne)]
      exact ih hnd.2 hmem

set_option maxRecDepth 8192 in
/-- C1.  The incremental merge is issued as one single MERGE statement whose
text carries all three branches, and its relational semantics satisfies: a
destination row whose id is absent from staging is never physically removed —
it keeps every data-column value and receives `_etl_operation = 'DELETE'`
with a fresh `_etl_synced`; a matched row receives staging's column values
and `'UPDATE'`; a staging-only row is inserted with `'INSERT'`; every
destination id survives into the result. -/
theorem c1_merge_soft_delete
    (stagingCols : List String) (dest : List DestRow) (staging : List StagingRow)
    (now : Nat) (hnd : (staging.map StagingRow.id).Nodup) :
    (∀ t ∈ dest, (∀ s ∈ staging, s.id ≠ t.id) →
        DestRow.mk t.id t.data now "DELETE" ∈ mergeSoftDelete stagingCols dest staging now)
  ∧ (∀ t ∈ dest, ∀ s ∈ staging, s.id = t.id →
        DestRow.mk t.id (fun c => if c ∈ stagingCols then s.data c else t.data c) now "UPDATE"
          ∈ mergeSoftDelete stagingCols dest staging now)
  ∧ (∀ s ∈ staging, (∀ t ∈ dest, t.id ≠ s.id) →
        DestRow.mk s.id (fun c => if c ∈ stagingCols then s.data c else Json.null) now "INSERT"
          ∈ mergeSoftDelete stagingCols dest staging now)
  ∧ (∀ t ∈ dest, t.id ∈ (mergeSoftDelete stagingCols dest staging now).map DestRow.id)
  ∧ (∀ project_id dataset_final table_final dataset_staging table_staging
        update_set insert_cols insert_values : String,
      strContains (mergeSqlText project_id dataset_final table_final dataset_staging
          table_staging update_set insert_cols insert_values)
        "WHEN MATCHED THEN UPDATE SET"
    ∧ strContains (mergeSqlText project_id dataset_final table_final dataset_staging
          table_staging update_set insert_cols insert_values)
        "WHEN NOT MATCHED THEN INSERT"
    ∧ strContains (mergeSqlText project_id dataset_final table_final dataset_staging
          table_staging update_set insert_cols insert_values)
        "WHEN NOT MATCHED BY SOURCE THEN UPDATE SET") := by
  refine ⟨?_, ?_, ?_, ?_, ?_⟩
  · intro t ht habs
    have hfind : staging.find? (fun s2 => s2.id == t.id) = none := by
      rw [List.find?_eq_none]
      intro s hs
      simpa using habs s hs
    refine List.mem_append_left _ (List.mem_map.mpr ⟨t, ht, ?_⟩)
    rw [hfind]
  · intro t ht s hs hid
    have hfind : staging.find? (fun s2 => s2.id == t.id) = some s :=
      find?_id_unique hnd hs hid
    refine List.mem_append_left _ (List.mem_map.mpr ⟨t, ht, ?_⟩)
    rw [hfind]
  · intro s hs habs
    have hany : (dest.any fun t => t.id == s.id) = false := by
      rw [List.any_eq_false]
      intro t ht
      simpa using habs t ht
    refine List.mem_append_right _ (List.mem_map.mpr ⟨s, ?_, rfl⟩)
    exact List.mem_filter.mpr ⟨hs, by rw [hany]; rfl⟩
  · intro t ht
    refine List.mem_map.mpr ?_
    cases hfind : staging.find? (fun s2 => s2.id == t.id) with
    | some s =>
        refine ⟨DestRow.mk t.id
          (fun c => if c ∈ stagingCols then s.data c else t.data c) now "UPDATE", ?_, rfl⟩
        refine List.mem_append_left _ (List.mem_map.mpr ⟨t, ht, ?_⟩)
        rw [hfind]
    | none =>
        refine ⟨DestRow.mk t.id t.data now "DELETE", ?_, rfl⟩
        refine List.mem_append_left _ (List.mem_map.mpr ⟨t, ht, ?_⟩)
        rw [hfind]
  · intro project_id dataset_final table_final dataset_staging table_staging
      update_set insert_cols insert_values
    refine ⟨?_, ?_, ?_⟩ <;>
      unfold mergeSqlText <;>
      repeat
        first
        | exact strContains_append_right _ (by unfold strContains; decide)
        | apply strContains_append_left

/-- Destination row values for the merge-correctness example: column `v`. -/
def valA : String → Json := fun c => if c = "v" then .str "a" else .null

def valB : String → Json := fun c => if c = "v" then .str "b" else .null

def valC : String → Json := fun c => if c = "v" then .str "c" else .null

def valD : String → Json := fun c => if c = "v" then .str "d" else .null

/-- Destination of the specification's merge-correctness example:
`{id:1, v:"a"}`, `{id:2, v:"b"}` (loaded at time 0). -/
def destExample : List DestRow := [⟨1, valA, 0, "INSERT"⟩, ⟨2, valB, 0, "INSERT"⟩]

/-- Staging of the example: `{id:2, v:"c"}`, `{id:3, v:"d"}`. -/
def stagingExample : List StagingRow := [⟨2, valC⟩, ⟨3, valD⟩]

/-- Witness for C1, the specification's merge-correctness example: after the
merge at time 42, id=1 is tombstoned with `v` unchanged ("a"), id=2 is
updated to staging's values, id=3 is inserted, and all three carry the fresh
timestamp. -/
theorem c1_merge_soft_delete_witness :
    DestRow.mk 1 valA 42 "DELETE" ∈ mergeSoftDelete ["v"] destExample stagingExample 42
  ∧ DestRow.mk 2 (fun c => if c ∈ ["v"] then valC c else valB c) 42 "UPDATE"
      ∈ mergeSoftDelete ["v"] destExample stagingExample 42
  ∧ DestRow.mk 3 (fun c => if c ∈ ["v"] then valD c else Json.null) 42 "INSERT"
      ∈ mergeSoftDelete ["v"] destExample stagingExample 42
  ∧ valA "v" = .str "a" ∧ valC "v" = .str "c" ∧ valD "v" = .str "d" := by
  obtain ⟨hdel, hupd, hins, _, _⟩ :=
    c1_merge_soft_delete ["v"] destExample stagingExample 42 (by decide)
  refine ⟨?_, ?_, ?_, rfl, rfl, rfl⟩
  · refine hdel ⟨1, valA, 0, "INSERT"⟩ (List.mem_cons_self _ _) ?_
    intro s hs
    rcases List.mem_cons.mp hs with rfl | hs2
    · decide
    · rcases List.mem_cons.mp hs2 with rfl | hs3
      · decide
      · cases hs3
  · exact hupd ⟨2, valB, 0, "INSERT"⟩ (List.mem_cons_of_mem _ (List.mem_cons_self _ _))
      ⟨2, valC⟩ (List.mem_cons_self _ _) rfl
  · refine hins ⟨3, valD⟩ (List.mem_cons_of_mem _ (List.mem_cons_self _ _)) ?_
    intro t ht
    rcases List.mem_cons.mp ht with rfl | ht2
    · decide
    · rcases List.mem_cons.mp ht2 with rfl | ht3
      · decide
      · cases ht3

/-! ## C7: at-most-one remediation retry for loads and merges -/

/-- C7.  The staging load performs at most 2 attempts; an unrecognized error
is reported verbatim after a single attempt with no retry; a recognized error
whose retry fails again is reported as failed after exactly 2 attempts.  The
merge performs at most 2 MERGE/migration executions with at most one schema
remediation, and an error matching none of the three patterns is terminal
after the single MERGE attempt with the original message. -/
theorem c7_at_most_one_retry (attempt : Nat → Option String) (env : MergeEnv) :
    (loadStagingFlow attempt).attempts ≤ 2
  ∧ (∀ e, attempt 0 = some e → matchRepeatedNull e = none → matchNonRecordField e = none →
      loadStagingFlow attempt
        = ⟨false, 1, some ("Error cargando a tabla staging: " ++ e), none⟩)
  ∧ (∀ e fld e2, attempt 0 = some e →
      (matchRepeatedNull e).orElse (fun _ => matchNonRecordField e) = some fld →
      attempt 1 = some e2 →
      (loadStagingFlow attempt).attempts = 2 ∧ (loadStagingFlow attempt).success = false)
  ∧ (mergeFlow env).attempts ≤ 2
  ∧ (mergeFlow env).remediations ≤ 1
  ∧ (∀ e, env.attempt 0 = some e → matchStructAssign e = none → matchTypeAssign e = none →
      matchMissingField e = none → mergeFlow env = ⟨false, 1, 0, some e⟩) := by
  refine ⟨?_, ?_, ?_, ?_, ?_, ?_⟩
  · unfold loadStagingFlow
    repeat' split
    all_goals simp
  · intro e h0 hm1 hm2
    simp [loadStagingFlow, h0, hm1, hm2, Option.orElse]
  · intro e fld e2 h0 hm h1
    simp [loadStagingFlow, h0, hm, h1]
  · unfold mergeFlow
    repeat' split
    all_goals simp
  · unfold mergeFlow
    repeat' split
    all_goals simp
  · intro e h0 hm1 hm2 hm3
    simp [mergeFlow, h0, hm1, hm2, hm3]

/-- Oracle that fails every attempt with an unrecognized error text. -/
def attemptBoom : Nat → Option String := fun _ => some "boom"

/-- Oracle whose first load fails with a recognized REPEATED-null error and
whose retry fails again. -/
def attemptFieldNull : Nat → Option String :=
  fun n => if n = 0 then some "Field: permissions; Value: NULL" else some "still broken"

/-- Merge environment whose single MERGE attempt fails unrecognizably. -/
def envBoom : MergeEnv := ⟨fun _ => some "boom", fun _ => true, fun _ => true, none, none⟩

/-- Witness for C7: an unrecognized load error gives 1 attempt and the
original message; a REPEATED-null error failing twice gives exactly 2 load
attempts and failure; an unrecognized merge error gives 1 attempt, 0
remediations and the original message. -/
theorem c7_at_most_one_retry_witness :
    loadStagingFlow attemptBoom
      = ⟨false, 1, some ("Error cargando a tabla staging: " ++ "boom"), none⟩
  ∧ (loadStagingFlow attemptFieldNull).attempts = 2
  ∧ (loadStagingFlow attemptFieldNull).success = false
  ∧ mergeFlow envBoom = ⟨false, 1, 0, some "boom"⟩ := by
  obtain ⟨_, hb2, _, _, _, hb6⟩ := c7_at_most_one_retry attemptBoom envBoom
  obtain ⟨_, _, hf3, _, _, _⟩ := c7_at_most_one_retry attemptFieldNull envBoom
  obtain ⟨ha, hs⟩ := hf3 "Field: permissions; Value: NULL" "permissions" "still broken"
    rfl (by decide) rfl
  exact ⟨hb2 "boom" rfl (by decide) (by decide), ha, hs,
    hb6 "boom" rfl (by decide) (by decide) (by decide)⟩
